import Mathlib

/-!
# camp::concepts: compile-time capability checking

A shallow embedding of `src/concepts.hpp`.  Everything in that header is computed by
the C++ compiler during template instantiation, so the embedding is a collection of total
functions over a small universe `Ty` of C++ types:

* a metafunction `X<Args...>::type` becomes a function returning `Option Ty`, where `none`
  stands for "there is no such type" (the member is absent, or the construct is
  ill-formed);
* a struct that inherits from `bool_<b>` (for instance `is_same<T, U>` or `all_of<Bs...>`)
  is represented by that base, the only part of it the library ever reads
  (`::value`, `::type::value`);
* an expression inside `decltype` is represented by the type deduced for a forwarding
  reference bound to it: `X&` for an lvalue of type `X`, `X` for an rvalue, and `none`
  when the expression is ill-formed.
-/

namespace camp
namespace concepts

/-! ## Types -/

/-- A class template whose parameters are all type parameters.  It accepts `minArity`
arguments, or at least that many when its last parameter is a pack (`variadic`). -/
structure ClassTemplate where
  name : String
  minArity : Nat
  variadic : Bool
deriving DecidableEq, Repr

/-- Whether a template-id with `n` type arguments names a specialization of `C`. -/
def ClassTemplate.admits (C : ClassTemplate) (n : Nat) : Bool :=
  if C.variadic then decide (C.minArity ≤ n) else decide (n = C.minArity)

/-- The C++ types the header manipulates.

* `named` is a fundamental or user-defined type, known only by its name;
* `bool_ B` is `metalib::integral_constant<bool, B>`;
* `blist Bs` is `metalib::blist<Bs...>`;
* `lref T` is `T &` and `const T` is `T const`;
* `app C args` is the class-template specialization `C<args...>`. -/
inductive Ty where
  | void : Ty
  | named (name : String) : Ty
  | bool_ (B : Bool) : Ty
  | blist (Bs : List Bool) : Ty
  | lref (T : Ty) : Ty
  | const (T : Ty) : Ty
  | app (C : ClassTemplate) (args : List Ty) : Ty

mutual
/-- Type identity is decidable: two types are the same exactly when they are built the
same way from the same parts. -/
def Ty.decEq : (a b : Ty) → Decidable (a = b)
  | .void, .void => isTrue rfl
  | .named m, .named n =>
    if h : m = n then isTrue (h ▸ rfl) else isFalse (fun e => h (Ty.named.inj e))
  | .bool_ m, .bool_ n =>
    if h : m = n then isTrue (h ▸ rfl) else isFalse (fun e => h (Ty.bool_.inj e))
  | .blist m, .blist n =>
    if h : m = n then isTrue (h ▸ rfl) else isFalse (fun e => h (Ty.blist.inj e))
  | .lref s, .lref t =>
    match Ty.decEq s t with
    | isTrue h => isTrue (h ▸ rfl)
    | isFalse h => isFalse (fun e => h (Ty.lref.inj e))
  | .const s, .const t =>
    match Ty.decEq s t with
    | isTrue h => isTrue (h ▸ rfl)
    | isFalse h => isFalse (fun e => h (Ty.const.inj e))
  | .app c xs, .app d ys =>
    if hc : c = d then
      match Ty.decEqList xs ys with
      | isTrue h => isTrue (hc ▸ h ▸ rfl)
      | isFalse h => isFalse (fun e => h (Ty.app.inj e).2)
    else isFalse (fun e => hc (Ty.app.inj e).1)
  | .void, .named _ | .void, .bool_ _ | .void, .blist _
  | .void, .lref _ | .void, .const _ | .void, .app _ _ =>
    isFalse (fun e => Ty.noConfusion e)
  | .named _, .void | .named _, .bool_ _ | .named _, .blist _
  | .named _, .lref _ | .named _, .const _ | .named _, .app _ _ =>
    isFalse (fun e => Ty.noConfusion e)
  | .bool_ _, .void | .bool_ _, .named _ | .bool_ _, .blist _
  | .bool_ _, .lref _ | .bool_ _, .const _ | .bool_ _, .app _ _ =>
    isFalse (fun e => Ty.noConfusion e)
  | .blist _, .void | .blist _, .named _ | .blist _, .bool_ _
  | .blist _, .lref _ | .blist _, .const _ | .blist _, .app _ _ =>
    isFalse (fun e => Ty.noConfusion e)
  | .lref _, .void | .lref _, .named _ | .lref _, .bool_ _
  | .lref _, .blist _ | .lref _, .const _ | .lref _, .app _ _ =>
    isFalse (fun e => Ty.noConfusion e)
  | .const _, .void | .const _, .named _ | .const _, .bool_ _
  | .const _, .blist _ | .const _, .lref _ | .const _, .app _ _ =>
    isFalse (fun e => Ty.noConfusion e)
  | .app _ _, .void | .app _ _, .named _ | .app _ _, .bool_ _
  | .app _ _, .blist _ | .app _ _, .lref _ | .app _ _, .const _ =>
    isFalse (fun e => Ty.noConfusion e)
/-- Identity of template argument lists, position by position. -/
def Ty.decEqList : (a b : List Ty) → Decidable (a = b)
  | [], [] => isTrue rfl
  | [], _ :: _ => isFalse (fun e => List.noConfusion e)
  | _ :: _, [] => isFalse (fun e => List.noConfusion e)
  | x :: xs, y :: ys =>
    match Ty.decEq x y, Ty.decEqList xs ys with
    | isTrue h, isTrue hs => isTrue (h ▸ hs ▸ rfl)
    | isFalse h, _ => isFalse (fun e => h (List.cons.inj e).1)
    | _, isFalse hs => isFalse (fun e => hs (List.cons.inj e).2)
end

instance : DecidableEq Ty := Ty.decEq

/-- The member `T::value` (equally `T::type::value`) of a boolean-constant type; `none`
when `T` has no such member. -/
def Ty.value : Ty → Option Bool
  | .bool_ B => some B
  | _ => none

/-- The type deduced for a by-value parameter from an argument: its reference and its
top-level `const` removed. -/
def Ty.decay : Ty → Ty
  | .lref (.const T) => T
  | .lref T => T
  | .const T => T
  | T => T

/-- The fundamental type `bool`. -/
def Ty.bool : Ty := .named "bool"

/-- A template template argument.  For a class template the template-id `C<args...>` names
a specialization as soon as the number of arguments fits; naming it does not instantiate
it (a template argument need not be a complete type), so nothing inside the definition of
`C` can make the template-id invalid.  For an alias template the template-id is replaced
at once by the result of substituting the arguments, which may fail. -/
inductive Template where
  | cls (C : ClassTemplate) : Template
  | alias (subst : List Ty → Option Ty) : Template

/-- The type named by the template-id `Tm<args...>`, when that template-id is valid. -/
def Template.apply : Template → List Ty → Option Ty
  | .cls C, args => if C.admits args.length then some (.app C args) else none
  | .alias subst, args => subst args

/-! ## The standard-library pieces the header relies on -/

namespace std

/-- The member `std::enable_if<B, T>::type`: `T` when `B` holds, absent otherwise. -/
def enable_if (B : Bool) (T : Ty) : Option Ty :=
  if B then some T else none

/-- The member `std::conditional<B, T, F>::type`. -/
def conditional (B : Bool) (T F : Ty) : Option Ty :=
  if B then some T else some F

end std

/-! ## metalib: boolean constants, conditional selection, boolean lists -/

namespace metalib

/-- The alias `using true_type = bool_<true>`. -/
def true_type : Ty := .bool_ true

/-- The alias `using false_type = bool_<false>`. -/
def false_type : Ty := .bool_ false

/-- The class template `template <typename...> struct list;`. -/
def list_template : ClassTemplate := ⟨"camp::concepts::metalib::list", 0, true⟩

/-- The type `list<Ts...>`. -/
def list (Ts : List Ty) : Ty := .app list_template Ts

/-- Matching a type against the pattern `list<Ts...>`. -/
def as_list : Ty → Option (List Ty)
  | .app C Ts => if C = list_template then some Ts else none
  | _ => none

/-- The toolchain the header is compiled with: `__clang__` defined or not. -/
inductive Compiler where
  | clang : Compiler
  | gcc : Compiler
deriving DecidableEq, Repr

namespace impl

namespace clang

/-- The member `type` of `_if_<A, B>` in the `#ifdef __clang__` branch (lines 42-59).
The three partial specializations match `A = list<If>`, `list<If, Then>` and
`list<If, Then, Else>` when `If::type::value` exists, in which case
`decltype(bool(If::type::value))` is `bool` and has to equal `B`; they inherit `type`
from `std::enable_if` or `std::conditional`.  Anything else selects the empty primary
template. -/
def _if_ (A B : Ty) : Option Ty :=
  match as_list A with
  | some [If] =>
    match If.value with
    | some v => if B = Ty.bool then std.enable_if v .void else none
    | none => none
  | some [If, Then] =>
    match If.value with
    | some v => if B = Ty.bool then std.enable_if v Then else none
    | none => none
  | some [If, Then, Else] =>
    match If.value with
    | some v => if B = Ty.bool then std.conditional v Then Else else none
    | none => none
  | _ => none

end clang

namespace gcc

/-- The member `type` of `_if_<A, B>` in the `#else` branch (lines 64-86).  Each partial
specialization matches when `B` is `bool_<If::type::value>` (for the last one
`bool_<!If::type::value>`); anything else selects the empty primary template. -/
def _if_ (A B : Ty) : Option Ty :=
  match as_list A with
  | some [If] =>
    match If.value with
    | some v => if B = .bool_ v then some .void else none
    | none => none
  | some [If, Then] =>
    match If.value with
    | some v => if B = .bool_ v then some Then else none
    | none => none
  | some [If, Then, Else] =>
    match If.value with
    | some v =>
      if B = .bool_ v then some Then
      else if B = .bool_ (!v) then some Else
      else none
    | none => none
  | _ => none

end gcc

/-- The template `_if_` with its second parameter left to its default: `bool` in the clang
branch, `true_type` in the other. -/
def _if_ (cc : Compiler) (A : Ty) : Option Ty :=
  match cc with
  | .clang => clang._if_ A Ty.bool
  | .gcc => gcc._if_ A true_type

end impl

/-- The alias `if_<Ts...> = typename impl::_if_<list<Ts...>>::type`. -/
def if_ (cc : Compiler) (Ts : List Ty) : Option Ty :=
  impl._if_ cc (list Ts)

/-- The alias `if_c<If, Args...> = typename impl::_if_<list<bool_<If>, Args...>>::type`. -/
def if_c (cc : Compiler) (If : Bool) (Args : List Ty) : Option Ty :=
  impl._if_ cc (list (.bool_ If :: Args))

/-- The struct `is_same<T, U>`: `true_type` through the partial specialization
`is_same<T, T>`, `false_type` through the primary template. -/
def is_same (T U : Ty) : Ty :=
  if T = U then true_type else false_type

/-- The struct `negate_t<T> : bool_<!T::value>`. -/
def negate_t (T : Ty) : Option Ty :=
  T.value.map fun v => .bool_ (!v)

/-- The struct `all_of<Bs...> : is_same<blist<true, Bs...>, blist<Bs..., true>>`. -/
def all_of (Bs : List Bool) : Ty :=
  is_same (.blist (true :: Bs)) (.blist (Bs ++ [true]))

/-- The struct `none_of<Bs...> : is_same<blist<false, Bs...>, blist<Bs..., false>>`. -/
def none_of (Bs : List Bool) : Ty :=
  is_same (.blist (false :: Bs)) (.blist (Bs ++ [false]))

/-- The struct `any_of<Bs...> : negate_t<none_of<Bs...>>`. -/
def any_of (Bs : List Bool) : Option Ty :=
  negate_t (none_of Bs)

/-- The pack expansion `Bs::value...` over a list of types. -/
def values (Bs : List Ty) : Option (List Bool) :=
  Bs.mapM Ty.value

/-- The struct `all_of_t<Bs...> : all_of<Bs::value...>`. -/
def all_of_t (Bs : List Ty) : Option Ty :=
  (values Bs).map all_of

/-- The struct `none_of_t<Bs...> : none_of<Bs::value...>`. -/
def none_of_t (Bs : List Ty) : Option Ty :=
  (values Bs).map none_of

/-- The struct `any_of_t<Bs...> : any_of<Bs::value...>`. -/
def any_of_t (Bs : List Ty) : Option Ty :=
  (values Bs).bind any_of

end metalib

/-! ## Expressions inside `decltype`

The header never evaluates an expression; it only asks the compiler whether one is
well-formed and what its type is.  Which operators, conversions and accessors a candidate
type supports is a fact about the program that uses the header, so it is a parameter of
the embedding. -/

/-- An expression in an unevaluated context, represented by the type a forwarding
reference `U &&` bound to it deduces for `U` (`X &` for an lvalue of type `X`, plain `X`
for an rvalue), or `none` when the expression is ill-formed. -/
abbrev Expr := Option Ty

/-- The built-in or overloaded unary operators the concepts use. -/
inductive UnaryOp where
  | deref : UnaryOp
  | pre_inc : UnaryOp
  | post_inc : UnaryOp
  | pre_dec : UnaryOp
  | post_dec : UnaryOp
deriving DecidableEq, Repr

/-- The built-in or overloaded binary operators the concepts use. -/
inductive BinaryOp where
  | lt : BinaryOp
  | le : BinaryOp
  | gt : BinaryOp
  | ge : BinaryOp
  | eq : BinaryOp
  | ne : BinaryOp
  | add : BinaryOp
  | sub : BinaryOp
  | add_assign : BinaryOp
  | sub_assign : BinaryOp
  | subscript : BinaryOp
deriving DecidableEq, Repr

/-- What the language and the standard library say about the candidate types: the
toolchain, the result of overload resolution for each operator on operands of given types
and value categories, which `static_cast`s are valid, what `std::begin` and `std::end`
return, and the primary type categories of `<type_traits>`. -/
structure Env where
  compiler : metalib.Compiler
  unary : UnaryOp → Ty → Option Ty
  binary : BinaryOp → Ty → Ty → Option Ty
  static_cast : Ty → Ty → Bool
  begin_ : Ty → Option Ty
  end_ : Ty → Option Ty
  is_arithmetic : Ty → Bool
  is_floating_point : Ty → Bool
  is_integral : Ty → Bool
  is_signed : Ty → Bool
  is_unsigned : Ty → Bool

/-- The type `T &`, with reference collapsing. -/
def Ty.ref : Ty → Ty
  | .lref T => .lref T
  | T => .lref T

/-- Applying a unary operator to an operand expression. -/
def Env.un (env : Env) (op : UnaryOp) (a : Expr) : Expr :=
  a.bind fun A => env.unary op A

/-- Applying a binary operator to two operand expressions. -/
def Env.bin (env : Env) (op : BinaryOp) (a b : Expr) : Expr :=
  a.bind fun A => b.bind fun B => env.binary op A B

/-- The expression `static_cast<T>(u)`, of type `T`. -/
def Env.cast (env : Env) (T : Ty) (u : Expr) : Expr :=
  u.bind fun U => if env.static_cast T U then some T else none

/-- Passing an expression as a function argument: every well-formed expression can be
bound to a parameter except one of type `void`. -/
def arg (e : Expr) : Expr :=
  e.bind fun U => if U = .void then none else some U

namespace detail

/-- The class template `template <class...> struct TL`. -/
def TL_template : ClassTemplate := ⟨"camp::concepts::detail::TL", 0, true⟩

/-- The type `TL<Args...>`. -/
def TL (Args : List Ty) : Ty := .app TL_template Args

/-- Matching a type against the pattern `TL<Args...>`. -/
def as_TL : Ty → Option (List Ty)
  | .app C Args => if C = TL_template then some Args else none
  | _ => none

/-- The member `voider<Ts...>::type`, which is `void` whatever the arguments are. -/
def voider (_ : List Ty) : Ty := .void

/-- The two members every specialization of `detector` defines. -/
structure detector where
  value_t : Ty
  type : Ty
deriving DecidableEq

/-- The specialization `detector<Default, V, Concept, TArgs>` (lines 177-193).  The
partial specialization is selected when `TArgs` is `TL<Args...>`, the template-id
`Concept<Args...>` is valid, and `V` is `voider<Concept<Args...>>::type`; otherwise the
primary template is. -/
def detector.select (Default V : Ty) (Concept : Template) (TArgs : Ty) : detector :=
  match as_TL TArgs with
  | some Args =>
    match Concept.apply Args with
    | some CA =>
      if V = voider [CA] then ⟨metalib.true_type, CA⟩ else ⟨metalib.false_type, Default⟩
    | none => ⟨metalib.false_type, Default⟩
  | none => ⟨metalib.false_type, Default⟩

/-- The alias `is_detected<Concept, TArgs> = detector<void, void, Concept, TArgs>`. -/
def is_detected (Concept : Template) (TArgs : Ty) : detector :=
  detector.select .void .void Concept TArgs

/-- The alias `detected<Concept, TArgs> = typename is_detected<Concept, TArgs>::value_t`. -/
def detected (Concept : Template) (TArgs : Ty) : Ty :=
  (is_detected Concept TArgs).value_t

/-- The call `returns<Ret>(t)`, declared as `Ret returns(T const &)`. -/
def returns (Ret : Ty) (t : Expr) : Expr :=
  (arg t).map fun _ => Ret

end detail

/-- The call `val<T>()`, declared with return type `decltype(std::declval<T>())`. -/
def val (T : Ty) : Expr := some T

/-- The call `convertible_to<T>(u)`, whose return type is
`decltype(detail::returns<true_type>(static_cast<T>((U &&) u)))`. -/
def convertible_to (env : Env) (T : Ty) (u : Expr) : Expr :=
  detail.returns metalib.true_type (env.cast T (arg u))

/-- The call `has_type<T>(u)`, whose return type is `if_<is_same<T, U>, true_type>`. -/
def has_type (env : Env) (T : Ty) (u : Expr) : Expr :=
  (arg u).bind fun U => metalib.if_ env.compiler [metalib.is_same T U, metalib.true_type]

/-- The call `is(b)`, declared `is(BoolLike)` with return type `if_<BoolLike, true_type>`;
`BoolLike` is deduced from the argument, taken by value. -/
def is (env : Env) (b : Expr) : Expr :=
  (arg b).bind fun B => metalib.if_ env.compiler [B.decay, metalib.true_type]

/-- The call `is_not(b)`, declared `is_not(BoolLike)` with return type
`if_c<!BoolLike::value, true_type>`. -/
def is_not (env : Env) (b : Expr) : Expr :=
  (arg b).bind fun B =>
    B.decay.value.bind fun v => metalib.if_c env.compiler (!v) [metalib.true_type]

/-- The call `___valid_expr___(ts...)`, declared as
`true_type ___valid_expr___(T &&...)`: well-formed when every argument is. -/
def ___valid_expr___ (ts : List Expr) : Expr :=
  if ts.all fun t => (arg t).isSome then some metalib.true_type else none

/-- The macro `DefineConcept(...)`, that is `decltype(___valid_expr___(__VA_ARGS__))`.
A concept `struct X : DefineConcept(...)` is represented by this base class: the result
is `none` when the base specifier is ill-formed, so that `X<T>` cannot be instantiated. -/
def DefineConcept (ts : List Expr) : Option Ty :=
  ___valid_expr___ ts

/-- The struct `requires_<Op, Args...> : detail::detected<Op, detail::TL<Args...>>`. -/
def requires_ (Op : Template) (Args : List Ty) : Ty :=
  detail.detected Op (detail.TL Args)

namespace types

end types

/-! ## The concept catalogue

Each concept is a class template `template <typename T> struct X : DefineConcept(...)`.
The function `X env T` below is what instantiating `X<T>` produces: its base class
`true_type`, or `none` when the base specifier is ill-formed.  The expression `X<T>()`
that other concepts list needs `X<T>` to be complete and so has the same representation.
The class template itself, as something that can be named and passed as a template
template argument, is a separate object (see `templates` below). -/

/-- The struct `ComparableTo<T, U>` (lines 308-322). -/
def ComparableTo (env : Env) (T U : Ty) : Option Ty :=
  DefineConcept
    [ convertible_to env Ty.bool (env.bin .lt (val U) (val T)),
      convertible_to env Ty.bool (env.bin .lt (val T) (val U)),
      convertible_to env Ty.bool (env.bin .le (val U) (val T)),
      convertible_to env Ty.bool (env.bin .le (val T) (val U)),
      convertible_to env Ty.bool (env.bin .gt (val U) (val T)),
      convertible_to env Ty.bool (env.bin .gt (val T) (val U)),
      convertible_to env Ty.bool (env.bin .ge (val U) (val T)),
      convertible_to env Ty.bool (env.bin .ge (val T) (val U)),
      convertible_to env Ty.bool (env.bin .eq (val U) (val T)),
      convertible_to env Ty.bool (env.bin .eq (val T) (val U)),
      convertible_to env Ty.bool (env.bin .ne (val U) (val T)),
      convertible_to env Ty.bool (env.bin .ne (val T) (val U)) ]

/-- The struct `Comparable<T> : ComparableTo<T, T>`. -/
def Comparable (env : Env) (T : Ty) : Option Ty :=
  ComparableTo env T T

/-- The struct `Arithmetic<T> : DefineConcept(is(std::is_arithmetic<T>()))`. -/
def Arithmetic (env : Env) (T : Ty) : Option Ty :=
  DefineConcept [is env (some (.bool_ (env.is_arithmetic T)))]

/-- The struct `FloatingPoint<T> : DefineConcept(is(std::is_floating_point<T>()))`. -/
def FloatingPoint (env : Env) (T : Ty) : Option Ty :=
  DefineConcept [is env (some (.bool_ (env.is_floating_point T)))]

/-- The struct `Integral<T> : DefineConcept(is(std::is_integral<T>()))`. -/
def Integral (env : Env) (T : Ty) : Option Ty :=
  DefineConcept [is env (some (.bool_ (env.is_integral T)))]

/-- The struct `Signed<T> : DefineConcept(Integral<T>(), is(std::is_signed<T>()))`. -/
def Signed (env : Env) (T : Ty) : Option Ty :=
  DefineConcept [Integral env T, is env (some (.bool_ (env.is_signed T)))]

/-- The struct `Unsigned<T> : DefineConcept(Integral<T>(), is(std::is_unsigned<T>()))`. -/
def Unsigned (env : Env) (T : Ty) : Option Ty :=
  DefineConcept [Integral env T, is env (some (.bool_ (env.is_unsigned T)))]

/-- The struct `Iterator<T>` (lines 348-353). -/
def Iterator (env : Env) (T : Ty) : Option Ty :=
  DefineConcept
    [ is_not env (Integral env T),
      env.un .deref (val T),
      has_type env T.ref (env.un .pre_inc (val T.ref)) ]

/-- The struct `ForwardIterator<T>` (lines 355-358). -/
def ForwardIterator (env : Env) (T : Ty) : Option Ty :=
  DefineConcept
    [ Iterator env T,
      env.un .post_inc (val T.ref),
      env.un .deref (env.un .post_inc (val T.ref)) ]

namespace templates

def Iterator : ClassTemplate := ⟨"camp::concepts::Iterator", 1, false⟩
def ForwardIterator : ClassTemplate := ⟨"camp::concepts::ForwardIterator", 1, false⟩
def Comparable : ClassTemplate := ⟨"camp::concepts::Comparable", 1, false⟩
def ComparableTo : ClassTemplate := ⟨"camp::concepts::ComparableTo", 2, false⟩
def Arithmetic : ClassTemplate := ⟨"camp::concepts::Arithmetic", 1, false⟩
def FloatingPoint : ClassTemplate := ⟨"camp::concepts::FloatingPoint", 1, false⟩
def Integral : ClassTemplate := ⟨"camp::concepts::Integral", 1, false⟩
def Signed : ClassTemplate := ⟨"camp::concepts::Signed", 1, false⟩
def Unsigned : ClassTemplate := ⟨"camp::concepts::Unsigned", 1, false⟩

end templates

end concepts

/-! ## type_traits: trait adapters and specialization detection -/

namespace type_traits

open concepts

/-- The macro `DefineTypeTraitFromConcept(TTName, ConceptName)`, which declares
`template <typename... Args> struct TTName : requires_<ConceptName, Args...>`. -/
def DefineTypeTraitFromConcept (ConceptName : ClassTemplate) (Args : List Ty) : Ty :=
  requires_ (.cls ConceptName) Args

def is_iterator := DefineTypeTraitFromConcept templates.Iterator
def is_forward_iterator := DefineTypeTraitFromConcept templates.ForwardIterator
def is_comparable := DefineTypeTraitFromConcept templates.Comparable
def is_comparable_to := DefineTypeTraitFromConcept templates.ComparableTo
def is_arithmetic := DefineTypeTraitFromConcept templates.Arithmetic
def is_floating_point := DefineTypeTraitFromConcept templates.FloatingPoint
def is_integral := DefineTypeTraitFromConcept templates.Integral
def is_signed := DefineTypeTraitFromConcept templates.Signed
def is_unsigned := DefineTypeTraitFromConcept templates.Unsigned

namespace detail

/-- The struct `detail::IsSpecialized<V, Template, T...>` (lines 443-452): `true_type`
through the partial specialization, selected when `Template<T...>` is a valid template-id
and `V` is `voider<decltype(val<Template<T...>>())>::type`; `false_type` otherwise. -/
def IsSpecialized (V : Ty) (Tm : Template) (T : List Ty) : Ty :=
  match Tm.apply T with
  | some TT =>
    if V = concepts.detail.voider [TT] then metalib.true_type else metalib.false_type
  | none => metalib.false_type

/-- The struct `detail::SpecializationOf<Expected, Actual, B, Args...>` (lines 454-466):
`false_type` through the primary template, and through the partial specialization for
`B = true` the struct `is_same<Expected<Args...>, Actual<Args...>>`, which exists only if
both template-ids are valid. -/
def SpecializationOf (Expected Actual : Template) (B : Bool) (Args : List Ty) : Option Ty :=
  match B with
  | true =>
    match Expected.apply Args, Actual.apply Args with
    | some E, some A => some (metalib.is_same E A)
    | _, _ => none
  | false => some metalib.false_type

end detail

/-- The alias `IsSpecialized<Outer, Args...> = detail::IsSpecialized<void, Outer, Args...>`. -/
def IsSpecialized (Outer : Template) (Args : List Ty) : Ty :=
  detail.IsSpecialized .void Outer Args

/-- The struct `SpecializationOf<Expected, T>` (lines 474-486): `false_type` through the
primary template; when `T` decomposes as `Actual<Args...>` the partial specialization
inherits from
`detail::SpecializationOf<Expected, Actual, IsSpecialized<Expected, Args...>::value, Args...>`. -/
def SpecializationOf (Expected : Template) (T : Ty) : Option Ty :=
  match T with
  | .app Actual Args =>
    (IsSpecialized Expected Args).value.bind fun B =>
      detail.SpecializationOf Expected (.cls Actual) B Args
  | _ => some metalib.false_type

end type_traits

/-! ## A sample program

The fundamental types `bool`, `int`, `unsigned` and `double` with their built-in
operators and conversions; every other type supports nothing.  It serves as a concrete
environment on which the definitions above can be evaluated. -/

namespace sample

open concepts

def int : Ty := .named "int"
def unsigned : Ty := .named "unsigned"
def double : Ty := .named "double"

/-- The alias `std::remove_cv`, as far as `const` goes. -/
def unqual : Ty → Ty
  | .const T => T
  | T => T

/-- The arithmetic types of the sample. -/
def arithmetic (T : Ty) : Bool :=
  T = Ty.bool || T = int || T = unsigned || T = double

/-- An lvalue of a non-const arithmetic type: it can be assigned to. -/
def assignable : Ty → Bool
  | .lref T => arithmetic T
  | _ => false

/-- An lvalue that can be incremented and decremented: assignable and not a `bool`. -/
def steppable (A : Ty) : Bool :=
  assignable A && !(A = .lref Ty.bool)

/-- The usual arithmetic conversions. -/
def common (A B : Ty) : Ty :=
  if A = double ∨ B = double then double
  else if A = unsigned ∨ B = unsigned then unsigned
  else int

/-- Whether `static_cast<T>(u)` is valid for an operand `u` of the given type and value
category. -/
def castable (T U : Ty) : Bool :=
  match T with
  | .lref (.const X) => arithmetic X && arithmetic U.decay
  | .lref X => U = .lref X && arithmetic X
  | _ => arithmetic (unqual T) && arithmetic U.decay

/-- The sample environment, for either toolchain. -/
def env (cc : metalib.Compiler) : Env where
  compiler := cc
  unary := fun op A =>
    match op with
    | .deref => none
    | .pre_inc | .pre_dec => if steppable A then some A else none
    | .post_inc | .post_dec => if steppable A then some A.decay else none
  binary := fun op A B =>
    if arithmetic A.decay && arithmetic B.decay then
      match op with
      | .lt | .le | .gt | .ge | .eq | .ne => some Ty.bool
      | .add | .sub => some (common A.decay B.decay)
      | .add_assign | .sub_assign => if assignable A then some A else none
      | .subscript => none
    else none
  static_cast := castable
  begin_ := fun _ => none
  end_ := fun _ => none
  is_arithmetic := fun T => arithmetic (unqual T)
  is_floating_point := fun T => unqual T = double
  is_integral := fun T => unqual T = Ty.bool || unqual T = int || unqual T = unsigned
  is_signed := fun T => unqual T = int || unqual T = double
  is_unsigned := fun T => unqual T = Ty.bool || unqual T = unsigned

/-! ### Iterators and a container

A second sample adds to the first one the pointer `int*` with the built-in pointer
operators, and three user-defined classes:

* `InputOnly` declares `int& operator*() const` and `InputOnly& operator++()` and
  nothing else;
* `FwdIt` declares in addition `FwdIt operator++(int)` and the comparisons `==` and `!=`,
  but no decrement;
* `FwdList` is a container whose `begin()` and `end()` return a `FwdIt`. -/

def int_ptr : Ty := .named "int*"
def long : Ty := .named "long"
def InputOnly : Ty := .named "InputOnly"
def FwdIt : Ty := .named "FwdIt"
def FwdList : Ty := .named "FwdList"

/-- The unary operators of `int*`, `FwdIt` and `InputOnly`. -/
def iter_unary (op : UnaryOp) (A : Ty) : Option Ty :=
  if A.decay = int_ptr then
    match op with
    | .deref => some (.lref int)
    | .pre_inc | .pre_dec => if A = .lref int_ptr then some A else none
    | .post_inc | .post_dec => if A = .lref int_ptr then some int_ptr else none
  else if A.decay = FwdIt then
    match op with
    | .deref => some (.lref int)
    | .pre_inc => if A = .lref FwdIt then some A else none
    | .post_inc => if A = .lref FwdIt then some FwdIt else none
    | .pre_dec | .post_dec => none
  else if A.decay = InputOnly then
    match op with
    | .deref => some (.lref int)
    | .pre_inc => if A = .lref InputOnly then some A else none
    | .post_inc | .pre_dec | .post_dec => none
  else none

/-- The binary operators of `int*` (with the difference type `long`) and `FwdIt`. -/
def iter_binary (op : BinaryOp) (A B : Ty) : Option Ty :=
  if A.decay = int_ptr ∧ B.decay = int_ptr then
    match op with
    | .lt | .le | .gt | .ge | .eq | .ne => some Ty.bool
    | .sub => some long
    | .add | .add_assign | .sub_assign | .subscript => none
  else if A.decay = int_ptr ∧ B.decay = long then
    match op with
    | .add | .sub => some int_ptr
    | .add_assign | .sub_assign => if A = .lref int_ptr then some A else none
    | .subscript => some (.lref int)
    | .lt | .le | .gt | .ge | .eq | .ne => none
  else if A.decay = long ∧ B.decay = int_ptr then
    match op with
    | .add => some int_ptr
    | .subscript => some (.lref int)
    | _ => none
  else if A.decay = FwdIt ∧ B.decay = FwdIt then
    match op with
    | .eq | .ne => some Ty.bool
    | _ => none
  else none

/-- A cast to the operand's own type, or to a reference it can bind to. -/
def same_cast (T U : Ty) : Bool :=
  match T with
  | .void => false
  | .lref (.const X) => U.decay = X
  | .lref X => U = .lref X
  | X => U.decay = unqual X

/-- The second sample environment, for either toolchain. -/
def iter_env (cc : metalib.Compiler) : Env where
  compiler := cc
  unary := fun op A =>
    match iter_unary op A with
    | some R => some R
    | none => (env cc).unary op A
  binary := fun op A B =>
    match iter_binary op A B with
    | some R => some R
    | none => (env cc).binary op A B
  static_cast := fun T U => castable T U || same_cast T U
  begin_ := fun A => if A.decay = FwdList then some FwdIt else none
  end_ := fun A => if A.decay = FwdList then some FwdIt else none
  is_arithmetic := fun T => (env cc).is_arithmetic T || unqual T = long
  is_floating_point := (env cc).is_floating_point
  is_integral := fun T => (env cc).is_integral T || unqual T = long
  is_signed := fun T => (env cc).is_signed T || unqual T = long
  is_unsigned := (env cc).is_unsigned

end sample

/-! ## Boolean algebra over compile-time constants -/

namespace concepts
namespace metalib

/-- Putting a sentinel in front of a list gives the same list as putting it behind exactly
when every element is the sentinel. -/
theorem cons_eq_append_singleton_iff (s : Bool) (Bs : List Bool) :
    s :: Bs = Bs ++ [s] ↔ ∀ b ∈ Bs, b = s := by
  induction Bs generalizing s with
  | nil => simp
  | cons b Bs ih =>
    constructor
    · intro h
      have hb : s = b := (List.cons.inj h).1
      have ht : b :: Bs = Bs ++ [b] := by
        have := (List.cons.inj h).2
        rw [hb] at this
        exact this
      intro x hx
      rcases List.mem_cons.mp hx with rfl | hx
      · exact hb.symm
      · rw [hb]
        exact (ih b).mp ht x hx
    · intro h
      have hb : b = s := h b (List.mem_cons_self b Bs)
      subst hb
      have ht : b :: Bs = Bs ++ [b] :=
        (ih b).mpr fun x hx => h x (List.mem_cons_of_mem b hx)
      simp only [List.cons_append]
      rw [← ht]

/-- The value of `is_same<T, U>` is whether the two types are identical. -/
theorem is_same_eq (T U : Ty) : is_same T U = .bool_ (decide (T = U)) := by
  unfold is_same true_type false_type
  by_cases h : T = U <;> simp [h]

/-- C1: for every sequence of booleans of length at least one, `all_of` is the structural
equality of the list with `true` put in front and the list with `true` put behind, and it
is true if and only if every element is true. -/
theorem all_of_iff_all_true (Bs : List Bool) (_h : 1 ≤ Bs.length) :
    (all_of Bs).value = some (decide (true :: Bs = Bs ++ [true])) ∧
      ((all_of Bs).value = some true ↔ ∀ b ∈ Bs, b = true) := by
  have hv : (all_of Bs).value = some (decide (true :: Bs = Bs ++ [true])) := by
    simp [all_of, is_same_eq, Ty.value]
  refine ⟨hv, ?_⟩
  rw [hv, ← cons_eq_append_singleton_iff true Bs]
  simp

/-- Witness for C1 on the mixed sequence `true, false, true`. -/
theorem all_of_iff_all_true_witness :
    1 ≤ [true, false, true].length ∧
      ((all_of [true, false, true]).value =
          some (decide (true :: [true, false, true] = [true, false, true] ++ [true])) ∧
        ((all_of [true, false, true]).value = some true ↔
          ∀ b ∈ [true, false, true], b = true)) :=
  ⟨by decide, all_of_iff_all_true [true, false, true] (by decide)⟩

/-- C2: for every sequence of booleans of length at least one, `none_of` is the structural
equality of the list with `false` put in front and the list with `false` put behind, and
it is true if and only if every element is false. -/
theorem none_of_iff_all_false (Bs : List Bool) (_h : 1 ≤ Bs.length) :
    (none_of Bs).value = some (decide (false :: Bs = Bs ++ [false])) ∧
      ((none_of Bs).value = some true ↔ ∀ b ∈ Bs, b = false) := by
  have hv : (none_of Bs).value = some (decide (false :: Bs = Bs ++ [false])) := by
    simp [none_of, is_same_eq, Ty.value]
  refine ⟨hv, ?_⟩
  rw [hv, ← cons_eq_append_singleton_iff false Bs]
  simp

/-- Witness for C2 on the mixed sequence `false, true`. -/
theorem none_of_iff_all_false_witness :
    1 ≤ [false, true].length ∧
      ((none_of [false, true]).value =
          some (decide (false :: [false, true] = [false, true] ++ [false])) ∧
        ((none_of [false, true]).value = some true ↔ ∀ b ∈ [false, true], b = false)) :=
  ⟨by decide, none_of_iff_all_false [false, true] (by decide)⟩

/-- The values of a list of boolean constants are the booleans they wrap. -/
theorem values_map_bool_ (Bs : List Bool) : values (Bs.map Ty.bool_) = some Bs := by
  unfold values
  induction Bs with
  | nil => rfl
  | cons b Bs ih =>
    rw [List.map_cons, List.mapM_cons, ih]
    rfl

/-- C3: for every sequence of booleans, `any_of` is the negation of `none_of`, and the
type-taking forms `any_of_t` and `none_of_t` stand in the same relation on every list of
boolean-constant types. -/
theorem any_of_eq_not_none_of (Bs : List Bool) :
    ∃ v : Bool, none_of Bs = .bool_ v ∧ any_of Bs = some (.bool_ (!v)) ∧
      none_of_t (Bs.map Ty.bool_) = some (.bool_ v) ∧
      any_of_t (Bs.map Ty.bool_) = some (.bool_ (!v)) := by
  refine ⟨decide (Ty.blist (false :: Bs) = Ty.blist (Bs ++ [false])), ?_⟩
  have h1 : none_of Bs = .bool_ (decide (Ty.blist (false :: Bs) = Ty.blist (Bs ++ [false]))) :=
    is_same_eq _ _
  have h2 : any_of Bs =
      some (.bool_ (!decide (Ty.blist (false :: Bs) = Ty.blist (Bs ++ [false])))) := by
    unfold any_of negate_t
    rw [h1]
    rfl
  refine ⟨h1, h2, ?_, ?_⟩
  · unfold none_of_t
    rw [values_map_bool_, Option.map_some', h1]
  · unfold any_of_t
    rw [values_map_bool_, Option.some_bind, h2]

/-! ## Conditional type selection -/

/-- The pattern `list<Ts...>` matches the type `list<Ts...>`, binding the pack to `Ts`. -/
theorem as_list_list (Ts : List Ty) : as_list (list Ts) = some Ts := by
  simp [as_list, list]

/-- C4: with three arguments the conditional yields exactly the taken branch, for a literal
boolean (`if_c`) and for a boolean-constant type (`if_`), in the clang branch and in the
other branch of `_if_`. -/
theorem if_three_args (cc : Compiler) (A B : Ty) :
    if_c cc true [A, B] = some A ∧ if_c cc false [A, B] = some B ∧
      if_ cc [.bool_ true, A, B] = some A ∧ if_ cc [.bool_ false, A, B] = some B := by
  cases cc <;>
    simp [if_c, if_, impl._if_, impl.clang._if_, impl.gcc._if_, as_list_list, Ty.value,
      std.conditional, true_type]

/-- C5: with two arguments the conditional yields the branch when the condition is true and
no type at all when it is false, in both branches of `_if_`. -/
theorem if_two_args (cc : Compiler) (A : Ty) :
    if_c cc true [A] = some A ∧ if_c cc false [A] = none ∧
      if_ cc [.bool_ true, A] = some A ∧ if_ cc [.bool_ false, A] = none := by
  cases cc <;>
    simp [if_c, if_, impl._if_, impl.clang._if_, impl.gcc._if_, as_list_list, Ty.value,
      std.enable_if, true_type]

/-- C6: the two implementations of `_if_` agree on every boolean-constant condition
followed by zero, one or two branch types: both yield the same type or both yield none.
With the condition alone both yield `void` when it is true and no type when it is
false. -/
theorem if_clang_eq_gcc (b : Bool) (Ts : List Ty) (_h : Ts.length ≤ 2) :
    if_ .clang (.bool_ b :: Ts) = if_ .gcc (.bool_ b :: Ts) ∧
      if_c .clang b Ts = if_c .gcc b Ts ∧
      (∀ cc, if_ cc [.bool_ true] = some .void ∧ if_ cc [.bool_ false] = none) := by
  have key : impl._if_ .clang (list (.bool_ b :: Ts)) =
      impl._if_ .gcc (list (.bool_ b :: Ts)) := by
    match Ts with
    | [] =>
      cases b <;>
        simp [impl._if_, impl.clang._if_, impl.gcc._if_, as_list_list, Ty.value,
          std.enable_if, true_type]
    | [T] =>
      cases b <;>
        simp [impl._if_, impl.clang._if_, impl.gcc._if_, as_list_list, Ty.value,
          std.enable_if, true_type]
    | [T, E] =>
      cases b <;>
        simp [impl._if_, impl.clang._if_, impl.gcc._if_, as_list_list, Ty.value,
          std.conditional, true_type]
    | _ :: _ :: _ :: _ =>
      simp [impl._if_, impl.clang._if_, impl.gcc._if_, as_list_list]
  refine ⟨key, key, ?_⟩
  intro cc
  cases cc <;>
    simp [if_, impl._if_, impl.clang._if_, impl.gcc._if_, as_list_list, Ty.value,
      std.enable_if, true_type]

/-- Witness for C6 on a false condition followed by the two branches `void` and `bool`:
both implementations select `bool`. -/
theorem if_clang_eq_gcc_witness :
    [Ty.void, Ty.bool].length ≤ 2 ∧
      (if_ .clang (.bool_ false :: [Ty.void, Ty.bool]) =
          if_ .gcc (.bool_ false :: [Ty.void, Ty.bool]) ∧
        if_c .clang false [Ty.void, Ty.bool] = if_c .gcc false [Ty.void, Ty.bool] ∧
        (∀ cc, if_ cc [.bool_ true] = some .void ∧ if_ cc [.bool_ false] = none)) :=
  ⟨by decide, if_clang_eq_gcc false [Ty.void, Ty.bool] (by decide)⟩

end metalib

/-! ## The detector -/

/-- The pattern `TL<Args...>` matches the type `TL<Args...>`, binding the pack to `Args`. -/
theorem detail.as_TL_TL (Args : List Ty) : detail.as_TL (detail.TL Args) = some Args := by
  simp [detail.as_TL, detail.TL]

/-- Which specialization of `detector` is selected: the partial one when the template-id
`Concept<Args...>` is valid, the primary one otherwise. -/
theorem detail.detector_select_TL (Default : Ty) (Concept : Template) (Args : List Ty) :
    detail.detector.select Default .void Concept (detail.TL Args) =
      (match Concept.apply Args with
        | some CA => ⟨metalib.true_type, CA⟩
        | none => ⟨metalib.false_type, Default⟩) := by
  unfold detail.detector.select
  rw [detail.as_TL_TL]
  cases h : Concept.apply Args <;>
    simp [h, detail.voider, metalib.true_type, metalib.false_type]

/-- The value of `requires_<Op, Args...>` is whether the template-id `Op<Args...>` is
valid. -/
theorem requires_eq (Op : Template) (Args : List Ty) :
    requires_ Op Args = .bool_ (Op.apply Args).isSome := by
  unfold requires_ detail.detected detail.is_detected
  rw [detail.detector_select_TL]
  cases h : Op.apply Args <;> simp [h, metalib.true_type, metalib.false_type]

/-- C7: for every default type, template and argument list, the detector reports
`value_t = true_type` and `type = Concept<Args...>` when the template-id `Concept<Args...>`
is well-formed, and `value_t = false_type` and `type = Default` when it is not; it always
produces a result.  Consequently `requires_<Concept, Args...>` is true exactly when
`Concept<Args...>` is well-formed. -/
theorem detector_reports (Default : Ty) (Concept : Template) (Args : List Ty) :
    detail.detector.select Default .void Concept (detail.TL Args) =
        (match Concept.apply Args with
          | some CA => ⟨metalib.true_type, CA⟩
          | none => ⟨metalib.false_type, Default⟩) ∧
      requires_ Concept Args = .bool_ (Concept.apply Args).isSome :=
  ⟨detail.detector_select_TL Default Concept Args, requires_eq Concept Args⟩

/-! ## Concept definitions -/

/-- A concept is satisfied exactly when every listed expression can be passed to
`___valid_expr___`. -/
theorem DefineConcept_eq_some_iff (ts : List Expr) :
    DefineConcept ts = some metalib.true_type ↔ ∀ t ∈ ts, (arg t).isSome = true := by
  unfold DefineConcept ___valid_expr___
  by_cases h : (ts.all fun t => (arg t).isSome) = true
  · rw [if_pos h]
    simpa using List.all_eq_true.mp h
  · rw [if_neg h]
    constructor
    · intro hc
      exact Option.noConfusion hc
    · intro hc
      exact absurd (List.all_eq_true.mpr hc) h

/-- A concept has no result exactly when some listed expression cannot be passed to
`___valid_expr___`. -/
theorem DefineConcept_eq_none_iff (ts : List Expr) :
    DefineConcept ts = none ↔ ∃ t ∈ ts, arg t = none := by
  unfold DefineConcept ___valid_expr___
  by_cases h : (ts.all fun t => (arg t).isSome) = true
  · rw [if_pos h]
    constructor
    · intro hc
      exact Option.noConfusion hc
    · rintro ⟨t, ht, hn⟩
      have := List.all_eq_true.mp h t ht
      rw [hn] at this
      exact Bool.noConfusion this
  · rw [if_neg h]
    refine ⟨fun _ => ?_, fun _ => rfl⟩
    by_contra hc
    apply h
    apply List.all_eq_true.mpr
    intro t ht
    cases hn : arg t with
    | none => exact absurd ⟨t, ht, hn⟩ hc
    | some _ => rfl

/-! ## Comparison concepts -/

/-- A call of `convertible_to` has type `true_type`, so whenever it is well-formed it can
be passed on as an argument. -/
theorem arg_convertible_to (env : Env) (T : Ty) (u : Expr) :
    arg (convertible_to env T u) = convertible_to env T u := by
  unfold convertible_to detail.returns
  cases h : arg (env.cast T (arg u)) <;> simp [arg, metalib.true_type]

/-- When `convertible_to<bool>` applied to a comparison of two values is well-formed: the
comparison is, its result is not `void`, and the result can be cast to `bool`. -/
theorem convertible_to_bool_isSome (env : Env) (op : BinaryOp) (A B : Ty) :
    (convertible_to env Ty.bool (env.bin op (val A) (val B))).isSome = true ↔
      ∃ R, env.binary op A B = some R ∧ R ≠ .void ∧ env.static_cast Ty.bool R = true := by
  have hb : Ty.bool ≠ Ty.void := by decide
  unfold convertible_to detail.returns Env.cast Env.bin val arg
  cases h : env.binary op A B with
  | none => simp [h]
  | some R =>
    by_cases hv : R = .void
    · simp [h, hv]
    · by_cases hc : env.static_cast Ty.bool R = true
      · simp [h, hv, hc, hb]
      · simp [h, hv, hc]

/-- The concepts `Comparable<T>` and `ComparableTo<T, T>` have the same base class.
It is `true_type` exactly when each of the six comparisons `<`, `<=`, `>`, `>=`,
`==`, `!=` between two values of type `T` is well-formed with a result convertible to
`bool`, and there is no result (neither concept is satisfied) exactly when at least one
of the six is missing or has a result that is not convertible. -/
theorem Comparable_eq_ComparableTo (env : Env) (T : Ty) :
    Comparable env T = ComparableTo env T T ∧
      (ComparableTo env T T = some metalib.true_type ↔
        ∀ op ∈ [BinaryOp.lt, .le, .gt, .ge, .eq, .ne],
          ∃ R, env.binary op T T = some R ∧ R ≠ .void ∧
            env.static_cast Ty.bool R = true) ∧
      (ComparableTo env T T = none ↔
        ∃ op ∈ [BinaryOp.lt, .le, .gt, .ge, .eq, .ne],
          ¬ ∃ R, env.binary op T T = some R ∧ R ≠ .void ∧
            env.static_cast Ty.bool R = true) := by
  simp only [← convertible_to_bool_isSome]
  refine ⟨rfl, ?_, ?_⟩
  · unfold ComparableTo
    rw [DefineConcept_eq_some_iff]
    simp only [List.mem_cons, List.mem_singleton, List.not_mem_nil, or_false,
      forall_eq_or_imp, forall_eq, arg_convertible_to]
    tauto
  · unfold ComparableTo
    rw [DefineConcept_eq_none_iff]
    simp only [List.mem_cons, List.mem_singleton, List.not_mem_nil, or_false,
      exists_eq_or_imp, exists_eq_left, arg_convertible_to, Bool.not_eq_true,
      Option.not_isSome, Option.isNone_iff_eq_none]
    tauto

end concepts

/-! ## Trait adapters -/

namespace type_traits

open concepts

/-- C8, the code at `is_integral<double>`: the trait is `true_type`, although the concept
`Integral<double>` is not satisfied (its only required expression,
`is(std::is_integral<double>())`, is ill-formed). -/
theorem is_integral_double_diverges (cc : metalib.Compiler) :
    is_integral [sample.double] = metalib.true_type ∧
      is (sample.env cc) (some (.bool_ ((sample.env cc).is_integral sample.double))) = none ∧
      Integral (sample.env cc) sample.double = none := by
  refine ⟨by decide, ?_, ?_⟩ <;> cases cc <;> decide

/-! ## Specialization detection -/

/-- C10: let `Actual<Args...>` be a class-template specialization and `Expected` any
template.  Then `SpecializationOf<Expected, Actual<Args...>>` is true if and only if
`Expected<Args...>` is well-formed and is the identical type, and it is false if and only
if that is not so; hence it is false whenever `Expected<Args...>` is a type distinct from
`Actual<Args...>`.  When the class template `Expected` is `Actual` itself, so that the
type examined is `Expected<Args...>`, it is true. -/
theorem SpecializationOf_iff (Expected : Template) (Actual : ClassTemplate)
    (Args : List Ty) (hA : Actual.admits Args.length = true) :
    (SpecializationOf Expected (.app Actual Args) = some metalib.true_type ↔
        Expected.apply Args = some (.app Actual Args)) ∧
      (SpecializationOf Expected (.app Actual Args) = some metalib.false_type ↔
        Expected.apply Args ≠ some (.app Actual Args)) ∧
      SpecializationOf (.cls Actual) (.app Actual Args) = some metalib.true_type := by
  have hcls : (Template.cls Actual).apply Args = some (.app Actual Args) := by
    simp [Template.apply, hA]
  have key : ∀ Ex : Template, SpecializationOf Ex (.app Actual Args) =
      some (.bool_ (decide (Ex.apply Args = some (.app Actual Args)))) := by
    intro Ex
    unfold SpecializationOf IsSpecialized detail.IsSpecialized
    cases h : Ex.apply Args with
    | none =>
      simp [h, metalib.false_type, Ty.value, detail.SpecializationOf]
    | some E =>
      simp [concepts.detail.voider, metalib.true_type, Ty.value, detail.SpecializationOf,
        h, hcls, metalib.is_same_eq]
  refine ⟨?_, ?_, ?_⟩
  · rw [key]
    simp [metalib.true_type]
  · rw [key]
    simp [metalib.false_type]
  · rw [key, hcls]
    simp [metalib.true_type]

/-- Witness for C10 on `list<int>`: it is a specialization of `list`. -/
theorem SpecializationOf_iff_witness :
    metalib.list_template.admits [sample.int].length = true ∧
      ((SpecializationOf (.cls metalib.list_template)
            (.app metalib.list_template [sample.int]) = some metalib.true_type ↔
          (Template.cls metalib.list_template).apply [sample.int] =
            some (.app metalib.list_template [sample.int])) ∧
        (SpecializationOf (.cls metalib.list_template)
            (.app metalib.list_template [sample.int]) = some metalib.false_type ↔
          (Template.cls metalib.list_template).apply [sample.int] ≠
            some (.app metalib.list_template [sample.int])) ∧
        SpecializationOf (.cls metalib.list_template)
            (.app metalib.list_template [sample.int]) = some metalib.true_type) :=
  ⟨by decide,
    SpecializationOf_iff (.cls metalib.list_template) metalib.list_template [sample.int]
      (by decide)⟩

end type_traits
end camp

/-! ## The iterator tiers -/

namespace camp
namespace concepts

/-- A concept either has the base class `true_type` or has none. -/
theorem DefineConcept_cases (ts : List Expr) :
    DefineConcept ts = some metalib.true_type ∨ DefineConcept ts = none := by
  unfold DefineConcept ___valid_expr___
  by_cases h : (ts.all fun t => (arg t).isSome) = true
  · exact Or.inl (if_pos h)
  · exact Or.inr (if_neg h)

/-- An object of a concept's type can be passed as an argument exactly when the concept is
satisfied. -/
theorem arg_DefineConcept (ts : List Expr) :
    (arg (DefineConcept ts)).isSome = true ↔ DefineConcept ts = some metalib.true_type := by
  rcases DefineConcept_cases ts with h | h <;> simp [h, arg, metalib.true_type]

/-- With a boolean-constant condition and a single branch, `if_` names the branch when the
condition is true and nothing otherwise. -/
theorem metalib.if_bool_single (cc : metalib.Compiler) (b : Bool) (A : Ty) :
    metalib.if_ cc [.bool_ b, A] = if b then some A else none := by
  cases cc <;> cases b <;>
    simp [metalib.if_, metalib.impl._if_, metalib.impl.clang._if_, metalib.impl.gcc._if_,
      metalib.as_list_list, Ty.value, std.enable_if, metalib.true_type]

/-- The call `is(X())` on an object of a standard trait class `X` with value `b` can be
passed on as an argument exactly when `b` is true. -/
theorem arg_is_bool (env : Env) (b : Bool) :
    (arg (is env (some (.bool_ b)))).isSome = true ↔ b = true := by
  cases b <;> simp [is, arg, Ty.decay, metalib.if_bool_single, metalib.true_type]

/-- C14: for every type `T`, `Signed<T>` is satisfied if and only if `T` is integral and
signed, and `Unsigned<T>` if and only if `T` is integral and unsigned; a type that is not
integral satisfies neither; `Signed<T>` and `Unsigned<T>` each include `Integral<T>`; and
`Integral<T>` implies `Arithmetic<T>`, given the standard library's guarantee that an
integral type is arithmetic. -/
theorem classification_concepts (env : Env) (T : Ty)
    (h : env.is_integral T = true → env.is_arithmetic T = true) :
    (Signed env T = some metalib.true_type ↔
        env.is_integral T = true ∧ env.is_signed T = true) ∧
      (Unsigned env T = some metalib.true_type ↔
        env.is_integral T = true ∧ env.is_unsigned T = true) ∧
      (env.is_integral T = true ∨ (Signed env T = none ∧ Unsigned env T = none)) ∧
      (Signed env T = some metalib.true_type ↔
        Integral env T = some metalib.true_type ∧ env.is_signed T = true) ∧
      (Unsigned env T = some metalib.true_type ↔
        Integral env T = some metalib.true_type ∧ env.is_unsigned T = true) ∧
      (Integral env T = some metalib.true_type ↔ env.is_integral T = true) ∧
      (Arithmetic env T = some metalib.true_type ↔ env.is_arithmetic T = true) ∧
      (Integral env T = none ∨ Arithmetic env T = some metalib.true_type) := by
  have hI : (arg (Integral env T)).isSome = true ↔
      Integral env T = some metalib.true_type := arg_DefineConcept _
  have eI : Integral env T = some metalib.true_type ↔ env.is_integral T = true := by
    conv_lhs => unfold Integral
    rw [DefineConcept_eq_some_iff]
    simp only [List.mem_singleton, forall_eq, arg_is_bool]
  have eA : Arithmetic env T = some metalib.true_type ↔ env.is_arithmetic T = true := by
    conv_lhs => unfold Arithmetic
    rw [DefineConcept_eq_some_iff]
    simp only [List.mem_singleton, forall_eq, arg_is_bool]
  have eS : Signed env T = some metalib.true_type ↔
      Integral env T = some metalib.true_type ∧ env.is_signed T = true := by
    conv_lhs => unfold Signed
    rw [DefineConcept_eq_some_iff]
    simp only [List.mem_cons, List.mem_singleton, List.not_mem_nil, or_false,
      forall_eq_or_imp, forall_eq, arg_is_bool, hI]
  have eU : Unsigned env T = some metalib.true_type ↔
      Integral env T = some metalib.true_type ∧ env.is_unsigned T = true := by
    conv_lhs => unfold Unsigned
    rw [DefineConcept_eq_some_iff]
    simp only [List.mem_cons, List.mem_singleton, List.not_mem_nil, or_false,
      forall_eq_or_imp, forall_eq, arg_is_bool, hI]
  have cS : Signed env T = some metalib.true_type ∨ Signed env T = none :=
    DefineConcept_cases _
  have cU : Unsigned env T = some metalib.true_type ∨ Unsigned env T = none :=
    DefineConcept_cases _
  have cI : Integral env T = some metalib.true_type ∨ Integral env T = none :=
    DefineConcept_cases _
  refine ⟨by rw [eS, eI], by rw [eU, eI], ?_, eS, eU, eI, eA, ?_⟩
  · by_cases hi : env.is_integral T = true
    · exact Or.inl hi
    · right
      constructor
      · rcases cS with c | c
        · exact absurd (eI.mp (eS.mp c).1) hi
        · exact c
      · rcases cU with c | c
        · exact absurd (eI.mp (eU.mp c).1) hi
        · exact c
  · rcases cI with c | c
    · exact Or.inr (eA.mpr (h (eI.mp c)))
    · exact Or.inl c

/-- Witness for C14 on `int` in the sample program: it is integral, hence arithmetic, and
`Signed<int>` is characterised as stated. -/
theorem classification_concepts_witness :
    ((sample.env .gcc).is_integral sample.int = true →
        (sample.env .gcc).is_arithmetic sample.int = true) ∧
      (Signed (sample.env .gcc) sample.int = some metalib.true_type ↔
        (sample.env .gcc).is_integral sample.int = true ∧
          (sample.env .gcc).is_signed sample.int = true) :=
  ⟨by decide, (classification_concepts (sample.env .gcc) sample.int (by decide)).1⟩

/-! ## Expressions of type `void` -/

/-- The expression `val<void>()` is well-formed, yet a concept that requires it is not
satisfied: an expression of type `void` cannot be passed to `___valid_expr___`, whose
parameters are `T &&...`. -/
theorem DefineConcept_val_void :
    ¬ (DefineConcept [val Ty.void] = some metalib.true_type ↔
        ∀ t ∈ [val Ty.void], t.isSome = true) := by
  decide

/-! ## The combinators on any number of operands -/

namespace metalib

/-- The value of `none_of` is the equality of the two sentinel lists. -/
theorem none_of_eq (Bs : List Bool) :
    none_of Bs = .bool_ (decide (false :: Bs = Bs ++ [false])) := by
  simp [none_of, is_same_eq]

/-- The value of `any_of` is the negation of that equality. -/
theorem any_of_eq (Bs : List Bool) :
    any_of Bs = some (.bool_ (!decide (false :: Bs = Bs ++ [false]))) := by
  unfold any_of negate_t
  rw [none_of_eq]
  rfl

/-- C16: for every sequence of booleans, `any_of` is true if and only if at least one
element is true, and `any_of_t` over boolean-constant types is true if and only if at
least one of their values is true. -/
theorem any_of_iff_exists_true (Bs : List Bool) :
    ((any_of Bs).bind Ty.value = some true ↔ ∃ b ∈ Bs, b = true) ∧
      ((any_of_t (Bs.map Ty.bool_)).bind Ty.value = some true ↔ ∃ b ∈ Bs, b = true) := by
  have key : (any_of Bs).bind Ty.value = some true ↔ ∃ b ∈ Bs, b = true := by
    rw [any_of_eq]
    simp only [Option.some_bind, Ty.value, Option.some.injEq, Bool.not_eq_true',
      decide_eq_false_iff_not, cons_eq_append_singleton_iff]
    constructor
    · intro h
      by_contra hc
      apply h
      intro b hb
      cases b with
      | false => rfl
      | true => exact absurd ⟨true, hb, rfl⟩ hc
    · rintro ⟨b, hb, rfl⟩ h
      exact Bool.noConfusion (h true hb)
  refine ⟨key, ?_⟩
  unfold any_of_t
  rw [values_map_bool_, Option.some_bind]
  exact key

/-- C17, the claim at zero operands: each of the three combinators has a value there. -/
theorem zero_operands_defined :
    (all_of []).value ≠ none ∧ (none_of []).value ≠ none ∧
      (any_of []).bind Ty.value ≠ none := by
  decide

/-- C17, amended: the combinators accept any number of operands, zero included.  Applied
to none, `all_of` and `none_of` are true (vacuous truth) and `any_of` is false, in the
boolean-taking and in the type-taking forms. -/
theorem zero_operands_vacuous :
    all_of [] = true_type ∧ none_of [] = true_type ∧ any_of [] = some false_type ∧
      all_of_t [] = some true_type ∧ none_of_t [] = some true_type ∧
      any_of_t [] = some false_type := by
  decide

end metalib

end concepts

namespace type_traits

open concepts

/-- C11, the code at `int*` and at `int`: the pointer is not integral, can be dereferenced
and its pre-increment has type `int*&`, yet `Iterator<int*>` is not satisfied, because
`is_not(Integral<int*>())` is ill-formed; and the trait `is_iterator<int>` is `true_type`
although `int` is integral. -/
theorem Iterator_int_ptr_diverges (cc : metalib.Compiler) :
    (sample.iter_env cc).is_integral sample.int_ptr = false ∧
      (sample.iter_env cc).un .deref (val sample.int_ptr) = some (.lref sample.int) ∧
      has_type (sample.iter_env cc) sample.int_ptr.ref
          ((sample.iter_env cc).un .pre_inc (val sample.int_ptr.ref)) =
        some metalib.true_type ∧
      is_not (sample.iter_env cc) (Integral (sample.iter_env cc) sample.int_ptr) = none ∧
      Iterator (sample.iter_env cc) sample.int_ptr = none ∧
      (sample.iter_env cc).is_integral sample.int = true ∧
      is_iterator [sample.int] = metalib.true_type := by
  cases cc <;> decide

/-- C18, the code at `InputOnly`, a class that is not integral and supports dereference and
pre-increment (returning `InputOnly&`) but no post-increment: `Iterator<InputOnly>` is
not satisfied, and the trait `is_forward_iterator<InputOnly>` is `true_type`. -/
theorem InputOnly_diverges (cc : metalib.Compiler) :
    (sample.iter_env cc).is_integral sample.InputOnly = false ∧
      (sample.iter_env cc).un .deref (val sample.InputOnly) = some (.lref sample.int) ∧
      has_type (sample.iter_env cc) sample.InputOnly.ref
          ((sample.iter_env cc).un .pre_inc (val sample.InputOnly.ref)) =
        some metalib.true_type ∧
      (sample.iter_env cc).un .post_inc (val sample.InputOnly.ref) = none ∧
      Iterator (sample.iter_env cc) sample.InputOnly = none ∧
      ForwardIterator (sample.iter_env cc) sample.InputOnly = none ∧
      is_iterator [sample.InputOnly] = metalib.true_type ∧
      is_forward_iterator [sample.InputOnly] = metalib.true_type := by
  cases cc <;> decide

/-- C9, the code at `FwdIt`, a class with `==` and `!=` but without `<`, `<=`, `>`, `>=`:
`Comparable<FwdIt>` and `ComparableTo<FwdIt, FwdIt>` have no base class at all, so neither
is a `false_type`, and the traits `is_comparable<FwdIt>` and
`is_comparable_to<FwdIt, FwdIt>` are `true_type`. -/
theorem Comparable_FwdIt_diverges (cc : metalib.Compiler) :
    (sample.iter_env cc).binary .eq sample.FwdIt sample.FwdIt = some Ty.bool ∧
      (sample.iter_env cc).binary .lt sample.FwdIt sample.FwdIt = none ∧
      Comparable (sample.iter_env cc) sample.FwdIt = none ∧
      ComparableTo (sample.iter_env cc) sample.FwdIt sample.FwdIt = none ∧
      Comparable (sample.iter_env cc) sample.FwdIt ≠ some metalib.false_type ∧
      ComparableTo (sample.iter_env cc) sample.FwdIt sample.FwdIt ≠
        some metalib.false_type ∧
      is_comparable [sample.FwdIt] = metalib.true_type ∧
      is_comparable_to [sample.FwdIt, sample.FwdIt] = metalib.true_type := by
  cases cc <;> decide

/-- C15, the code at `Signed<double>`, whose first required expression `Integral<double>()`
is ill-formed while the second, `is(std::is_signed<double>())`, is well-formed: the
concept has no base class at all, so it is not a `false_type`, and the trait
`is_signed<double>` is `true_type`. -/
theorem Signed_double_diverges (cc : metalib.Compiler) :
    Integral (sample.env cc) sample.double = none ∧
      is (sample.env cc) (some (.bool_ ((sample.env cc).is_signed sample.double))) =
        some metalib.true_type ∧
      Signed (sample.env cc) sample.double = none ∧
      Signed (sample.env cc) sample.double ≠ some metalib.false_type ∧
      (∀ ts, DefineConcept ts ≠ some metalib.false_type) ∧
      is_signed [sample.double] = metalib.true_type := by
  refine ⟨?_, ?_, ?_, ?_, ?_, by decide⟩
  · cases cc <;> decide
  · cases cc <;> decide
  · cases cc <;> decide
  · cases cc <;> decide
  · intro ts h
    rcases DefineConcept_cases ts with c | c
    · rw [c] at h
      exact absurd h (by decide)
    · rw [c] at h
      exact Option.noConfusion h

/-! ## Totality of the specialization check -/

/-- The value of `IsSpecialized<Outer, Args...>` is whether the template-id
`Outer<Args...>` is valid. -/
theorem IsSpecialized_eq (Outer : Template) (Args : List Ty) :
    IsSpecialized Outer Args = .bool_ (Outer.apply Args).isSome := by
  unfold IsSpecialized detail.IsSpecialized
  cases h : Outer.apply Args <;>
    simp [h, concepts.detail.voider, metalib.true_type, metalib.false_type]

/-- The check on a well-formed class-template specialization `Actual<Args...>`: the
identity of `Expected<Args...>` with it. -/
theorem SpecializationOf_app (Expected : Template) (Actual : ClassTemplate)
    (Args : List Ty) (hA : Actual.admits Args.length = true) :
    SpecializationOf Expected (.app Actual Args) =
      some (.bool_ (decide (Expected.apply Args = some (.app Actual Args)))) := by
  have hcls : (Template.cls Actual).apply Args = some (.app Actual Args) := by
    simp [Template.apply, hA]
  simp only [SpecializationOf, IsSpecialized_eq]
  cases h : Expected.apply Args with
  | none => simp [Ty.value, detail.SpecializationOf, metalib.false_type]
  | some E =>
    simp [Ty.value, detail.SpecializationOf, h, hcls, metalib.is_same_eq]

/-- C20: the specialization-identity check always produces a boolean.  On a type `T` that
is not a class-template specialization it is false; on a specialization `Actual<Args...>`
it is false when `Expected` cannot be applied to `Args`, that is when
`IsSpecialized<Expected, Args...>` is false, because the inner check with the flag
`false` is `false_type` without forming `Expected<Args...>`; and when
`IsSpecialized<Expected, Args...>` is true, `Expected<Args...>` is a type, so that the
identity comparison is well-formed and the check is a boolean again. -/
theorem SpecializationOf_total (Expected : Template) (Actual : ClassTemplate)
    (Args : List Ty) (T : Ty) (hT : ∀ C As, T ≠ .app C As)
    (hA : Actual.admits Args.length = true) :
    SpecializationOf Expected T = some metalib.false_type ∧
      (∃ b, SpecializationOf Expected (.app Actual Args) = some (.bool_ b)) ∧
      (IsSpecialized Expected Args = metalib.true_type ∨
        SpecializationOf Expected (.app Actual Args) = some metalib.false_type) ∧
      (IsSpecialized Expected Args = metalib.false_type ↔ Expected.apply Args = none) ∧
      detail.SpecializationOf Expected (.cls Actual) false Args = some metalib.false_type ∧
      (IsSpecialized Expected Args = metalib.true_type ↔
        ∃ E, Expected.apply Args = some E ∧
          detail.SpecializationOf Expected (.cls Actual) true Args =
            some (metalib.is_same E (.app Actual Args))) := by
  have hcls : (Template.cls Actual).apply Args = some (.app Actual Args) := by
    simp [Template.apply, hA]
  refine ⟨?_, ⟨_, SpecializationOf_app Expected Actual Args hA⟩, ?_, ?_, rfl, ?_⟩
  · cases T with
    | app C As => exact absurd rfl (hT C As)
    | void => rfl
    | named n => rfl
    | bool_ B => rfl
    | blist Bs => rfl
    | lref U => rfl
    | const U => rfl
  · rw [IsSpecialized_eq, SpecializationOf_app Expected Actual Args hA]
    cases h : Expected.apply Args <;> simp [metalib.true_type, metalib.false_type]
  · rw [IsSpecialized_eq]
    cases h : Expected.apply Args <;> simp [metalib.false_type]
  · rw [IsSpecialized_eq]
    cases h : Expected.apply Args <;>
      simp [metalib.true_type, detail.SpecializationOf, h, hcls]

/-- Witness for C20: `SpecializationOf<Iterator, int>` is false because `int` is not a
specialization, and `SpecializationOf<Iterator, list<int, double>>` is false because
`Iterator` takes one argument and cannot be applied to two. -/
theorem SpecializationOf_total_witness :
    (∀ C As, sample.int ≠ Ty.app C As) ∧
      metalib.list_template.admits [sample.int, sample.double].length = true ∧
      SpecializationOf (.cls templates.Iterator) sample.int = some metalib.false_type ∧
      IsSpecialized (.cls templates.Iterator) [sample.int, sample.double] =
        metalib.false_type ∧
      SpecializationOf (.cls templates.Iterator)
          (.app metalib.list_template [sample.int, sample.double]) =
        some metalib.false_type :=
  have hT : ∀ C As, sample.int ≠ Ty.app C As := fun _ _ h => Ty.noConfusion h
  have hA : metalib.list_template.admits [sample.int, sample.double].length = true := by
    decide
  have hS : IsSpecialized (.cls templates.Iterator) [sample.int, sample.double] =
      metalib.false_type := by decide
  have main := SpecializationOf_total (.cls templates.Iterator) metalib.list_template
    [sample.int, sample.double] sample.int hT hA
  ⟨hT, hA, main.1, hS,
    main.2.2.1.resolve_left (by rw [hS]; decide)⟩

end type_traits
end camp
